import Mathlib

/-!
Verification of the orbitme n-body simulator's physics core.

The repository keeps several generations of its physics module:
`src/lib/physics.ts` (namespace `Phys0` below: `accelFor`,
`stepSymplecticEuler`, `seedCircularVelocities` with a degenerate-tangent
fallback), the leapfrog-era `lib/physics.ts` kept as `src/unnamed/part_007`
(namespace `PhysLF`: `zeroSystemMomentum`, `seedCircularVelocities`,
`accumulateAccelerations`, `stepLeapfrog`, `stepRK4`), the body registry
`src/lib/bodies.ts` (namespace `BodiesLib`), and the trail-buffer discipline
of `src/components/OrbitCanvas.tsx` (namespace `Canvas`).

Scalars are modelled as real numbers (the spec's claims are stated "in exact
arithmetic"); JavaScript's `Math.sqrt`/`Math.hypot` become `Real.sqrt`.
Arrays of bodies become `List Body`; in-place mutation becomes functional
update.  Loop accumulations become `Finset` sums, and the per-frame body
array rebuild is a `List.map`/`List.zipWith` over the previous array.
-/

set_option maxHeartbeats 1000000

/-- A 3-vector of real scalars, modelling the `[number, number, number]`
triples used for positions and velocities throughout the source. -/
@[ext]
structure Vec3 where
  x : ℝ
  y : ℝ
  z : ℝ

/-- One gravitating (or test) particle, from `src/lib/bodies.ts` (`Body`):
`id`, `name`, `color`, `mass` (solar masses), `position` (AU), `velocity`
(AU/day), `radius` (visual only). -/
@[ext]
structure Body where
  id : String
  name : String
  color : String
  mass : ℝ
  position : Vec3
  velocity : Vec3
  radius : ℝ

/-- Junk body used as the default for `List.getD`; never observed at an
in-bounds index. -/
noncomputable def dB : Body :=
  { id := "", name := "", color := "", mass := 0,
    position := ⟨0, 0, 0⟩, velocity := ⟨0, 0, 0⟩, radius := 0 }

noncomputable instance : Inhabited Body := ⟨dB⟩

/-- Gravitational constant from `src/lib/bodies.ts`:
`G = 0.00029591220828559104` in AU^3 / (Msun * day^2). -/
noncomputable def G : ℝ := 0.00029591220828559104

/-- Plummer softening constant from `src/lib/bodies.ts` (`SOFTENING2`).
The snapshot's two `bodies.ts` variants use `1e-9` and `1e-5`; we take the
`1e-9` variant.  No theorem below depends on the value beyond it being
positive. -/
noncomputable def SOFTENING2 : ℝ := 1e-9

/-- Model of `Math.hypot(x, y, z)`: Euclidean length of a 3-vector. -/
noncomputable def hypot3 (x y z : ℝ) : ℝ := Real.sqrt (x * x + y * y + z * z)

namespace Phys0

/-- From `src/lib/physics.ts` (`accelFor` inner loop body): the softened
gravitational pull of body `j` on body `i`. -/
noncomputable def accelTerm (bodies : List Body) (ms : ℝ) (i j : ℕ) : Vec3 :=
  let bi := bodies.getD i dB
  let bj := bodies.getD j dB
  let dx := bj.position.x - bi.position.x
  let dy := bj.position.y - bi.position.y
  let dz := bj.position.z - bi.position.z
  let r2 := dx * dx + dy * dy + dz * dz + SOFTENING2
  let invR3 := 1 / (Real.sqrt r2 * r2)
  let s := G * bj.mass * ms * invR3
  ⟨dx * s, dy * s, dz * s⟩

/-- From `src/lib/physics.ts` (`accelFor`): total gravitational acceleration
on body `i`, a direct sum over all `j` with the `i == j` iteration skipped. -/
noncomputable def accelFor (bodies : List Body) (i : ℕ) (ms : ℝ) : Vec3 :=
  ⟨∑ j ∈ Finset.range bodies.length,
      if j = i then 0 else (accelTerm bodies ms i j).x,
   ∑ j ∈ Finset.range bodies.length,
      if j = i then 0 else (accelTerm bodies ms i j).y,
   ∑ j ∈ Finset.range bodies.length,
      if j = i then 0 else (accelTerm bodies ms i j).z⟩

/-- From `src/lib/physics.ts` (`stepSymplecticEuler`): for every body,
`v += a(x) * h` then `v *= velScale`, and afterwards `x += v * h` with the
updated velocity.  `accelFor` reads only positions, so the source's
sequential in-place velocity updates are equivalent to this two-pass form. -/
noncomputable def stepSymplecticEuler
    (bodies : List Body) (dt timeScale massScale velScale : ℝ) : List Body :=
  let h := dt * timeScale
  let b1 := (List.range bodies.length).map (fun i =>
    let b := bodies.getD i dB
    let a := accelFor bodies i massScale
    { b with velocity := ⟨(b.velocity.x + a.x * h) * velScale,
                          (b.velocity.y + a.y * h) * velScale,
                          (b.velocity.z + a.z * h) * velScale⟩ })
  b1.map (fun b =>
    { b with position := ⟨b.position.x + b.velocity.x * h,
                          b.position.y + b.velocity.y * h,
                          b.position.z + b.velocity.z * h⟩ })

/-- From `src/lib/physics.ts` (`seedCircularVelocities`): find the first body
whose id is `sunId`; for every other body at distance `r > 0`, assign speed
`sqrt (G * sunMass / r)` along the XY tangent `(-ry, rx, 0)`, falling back to
`(0, -rz, ry)` when that tangent is zero (radius parallel to the plane
normal).  The JS `b === sun` reference test is the index test `j = k0`. -/
noncomputable def seedCircularVelocities
    (bodies : List Body) (sunId : String) (clockwise : Bool) : List Body :=
  match bodies.findIdx? (fun b => b.id = sunId) with
  | none => bodies
  | some k0 =>
    (List.range bodies.length).map (fun j =>
      if j = k0 then bodies.getD j dB else
      let sun := bodies.getD k0 dB
      let b := bodies.getD j dB
      let rx := b.position.x - sun.position.x
      let ry := b.position.y - sun.position.y
      let rz := b.position.z - sun.position.z
      let r := hypot3 rx ry rz
      if r = 0 then b else
      let vmag := Real.sqrt (G * sun.mass / r)
      let t : Vec3 := if hypot3 (-ry) rx 0 = 0 then ⟨0, -rz, ry⟩ else ⟨-ry, rx, 0⟩
      let tlen := hypot3 t.x t.y t.z
      let s : ℝ := if clockwise then -1 else 1
      { b with velocity := ⟨t.x / tlen * vmag * s,
                            t.y / tlen * vmag * s,
                            t.z / tlen * vmag * s⟩ })

end Phys0

namespace PhysLF

/-- From `src/unnamed/part_007` (`zeroSystemMomentum` accumulation): total
mass of the array. -/
noncomputable def totalMass (bodies : List Body) : ℝ :=
  (bodies.map Body.mass).sum

/-- From `src/unnamed/part_007` (`zeroSystemMomentum` accumulation): the `x`
component of the system momentum `sum of m_i * v_i`. -/
noncomputable def momX (bodies : List Body) : ℝ :=
  (bodies.map (fun b => b.mass * b.velocity.x)).sum

/-- The `y` component of the system momentum. -/
noncomputable def momY (bodies : List Body) : ℝ :=
  (bodies.map (fun b => b.mass * b.velocity.y)).sum

/-- The `z` component of the system momentum. -/
noncomputable def momZ (bodies : List Body) : ℝ :=
  (bodies.map (fun b => b.mass * b.velocity.z)).sum

/-- From `src/unnamed/part_007` (`zeroSystemMomentum`): if the total mass is
zero, return the array untouched; otherwise subtract the mass-weighted mean
velocity from every body's velocity. -/
noncomputable def zeroSystemMomentum (bodies : List Body) : List Body :=
  if totalMass bodies = 0 then bodies
  else
    bodies.map (fun b =>
      { b with velocity := ⟨b.velocity.x - momX bodies / totalMass bodies,
                            b.velocity.y - momY bodies / totalMass bodies,
                            b.velocity.z - momZ bodies / totalMass bodies⟩ })

/-- From `src/unnamed/part_007` (`seedCircularVelocities`): same circular
seeding as `Phys0.seedCircularVelocities`, but with no alternate tangent:
the JS `Math.hypot(tx, ty, tz) || 1` replaces a zero tangent length by `1`,
so a degenerate radius keeps the zero tangent and yields a zero velocity. -/
noncomputable def seedCircularVelocities
    (bodies : List Body) (sunId : String) (clockwise : Bool) : List Body :=
  match bodies.findIdx? (fun b => b.id = sunId) with
  | none => bodies
  | some k0 =>
    (List.range bodies.length).map (fun j =>
      if j = k0 then bodies.getD j dB else
      let sun := bodies.getD k0 dB
      let b := bodies.getD j dB
      let rx := b.position.x - sun.position.x
      let ry := b.position.y - sun.position.y
      let rz := b.position.z - sun.position.z
      let r := hypot3 rx ry rz
      if r = 0 then b else
      let vmag := Real.sqrt (G * sun.mass / r)
      let tx := -ry
      let ty := rx
      let tz : ℝ := 0
      let tlen := if hypot3 tx ty tz = 0 then 1 else hypot3 tx ty tz
      let s : ℝ := if clockwise then -1 else 1
      { b with velocity := ⟨tx / tlen * vmag * s,
                            ty / tlen * vmag * s,
                            tz / tlen * vmag * s⟩ })

/-- The set of unordered index pairs `(i, j)` with `i < j < N`, over which
the pairwise branch of `accumulateAccelerations` iterates. -/
def pairFinset (N : ℕ) : Finset (ℕ × ℕ) :=
  (Finset.range N ×ˢ Finset.range N).filter (fun p => p.1 < p.2)

/-- From `src/unnamed/part_007` (`accumulateAccelerations`, pairwise branch,
loop body for the pair `(i, j)`): the i-side update `ax[i] += d * s1` with
`s1 = f * mass_j * massScale`. -/
noncomputable def pairAccel1 (bodies : List Body) (ms : ℝ) (i j : ℕ) : Vec3 :=
  let bi := bodies.getD i dB
  let bj := bodies.getD j dB
  let dx := bj.position.x - bi.position.x
  let dy := bj.position.y - bi.position.y
  let dz := bj.position.z - bi.position.z
  let r2 := dx * dx + dy * dy + dz * dz + SOFTENING2
  let invR3 := 1 / (Real.sqrt r2 * r2)
  let f := G * invR3
  let s1 := f * bj.mass * ms
  ⟨dx * s1, dy * s1, dz * s1⟩

/-- From `src/unnamed/part_007` (`accumulateAccelerations`, pairwise branch,
loop body for the pair `(i, j)`): the j-side reaction `ax[j] -= d * s2` with
`s2 = f * mass_i * massScale`. -/
noncomputable def pairAccel2 (bodies : List Body) (ms : ℝ) (i j : ℕ) : Vec3 :=
  let bi := bodies.getD i dB
  let bj := bodies.getD j dB
  let dx := bj.position.x - bi.position.x
  let dy := bj.position.y - bi.position.y
  let dz := bj.position.z - bi.position.z
  let r2 := dx * dx + dy * dy + dz * dz + SOFTENING2
  let invR3 := 1 / (Real.sqrt r2 * r2)
  let f := G * invR3
  let s2 := f * bi.mass * ms
  ⟨-(dx * s2), -(dy * s2), -(dz * s2)⟩

/-- The contribution of the unordered pair `(i, j)` to acceleration slot `k`:
`pairAccel1` lands on `i`, `pairAccel2` on `j`, nothing elsewhere. -/
noncomputable def pairContrib (bodies : List Body) (ms : ℝ) (i j k : ℕ) : Vec3 :=
  ⟨(if k = i then (pairAccel1 bodies ms i j).x else 0)
      + (if k = j then (pairAccel2 bodies ms i j).x else 0),
   (if k = i then (pairAccel1 bodies ms i j).y else 0)
      + (if k = j then (pairAccel2 bodies ms i j).y else 0),
   (if k = i then (pairAccel1 bodies ms i j).z else 0)
      + (if k = j then (pairAccel2 bodies ms i j).z else 0)⟩

/-- From `src/unnamed/part_007` (`accumulateAccelerations`): one acceleration
vector per body.  In the `centralSunOnly` branch every non-sun body is pulled
only toward the body at `sunIndex`; otherwise the pairwise loop accumulates
each unordered pair's symmetric contribution. -/
noncomputable def accumulateAccelerations
    (bodies : List Body) (massScale : ℝ) (centralSunOnly : Bool)
    (sunIndex : ℕ) : List Vec3 :=
  let N := bodies.length
  if centralSunOnly then
    (List.range N).map (fun i =>
      if i = sunIndex then ⟨0, 0, 0⟩ else
      let s := bodies.getD sunIndex dB
      let bi := bodies.getD i dB
      let dx := s.position.x - bi.position.x
      let dy := s.position.y - bi.position.y
      let dz := s.position.z - bi.position.z
      let r2 := dx * dx + dy * dy + dz * dz + SOFTENING2
      let invR3 := 1 / (Real.sqrt r2 * r2)
      let s1 := G * s.mass * massScale * invR3
      ⟨dx * s1, dy * s1, dz * s1⟩)
  else
    (List.range N).map (fun k =>
      ⟨∑ p ∈ pairFinset N, (pairContrib bodies massScale p.1 p.2 k).x,
       ∑ p ∈ pairFinset N, (pairContrib bodies massScale p.1 p.2 k).y,
       ∑ p ∈ pairFinset N, (pairContrib bodies massScale p.1 p.2 k).z⟩)

/-- From `src/unnamed/part_007` (`stepLeapfrog`): kick by `a(x) * h/2`,
drift by `v * h`, kick by `a(x') * h/2`, and multiply the resulting velocity
by `velScale`, with `h = dt * timeScale` applied in a single step. -/
noncomputable def stepLeapfrog
    (bodies : List Body) (dt timeScale massScale velScale : ℝ)
    (centralSunOnly : Bool) (sunIndex : ℕ) : List Body :=
  let h := dt * timeScale
  let a1 := accumulateAccelerations bodies massScale centralSunOnly sunIndex
  let b1 := List.zipWith (fun b ai =>
    { b with velocity := ⟨b.velocity.x + ai.x * (h * 0.5),
                          b.velocity.y + ai.y * (h * 0.5),
                          b.velocity.z + ai.z * (h * 0.5)⟩ }) bodies a1
  let b2 := b1.map (fun b =>
    { b with position := ⟨b.position.x + b.velocity.x * h,
                          b.position.y + b.velocity.y * h,
                          b.position.z + b.velocity.z * h⟩ })
  let a2 := accumulateAccelerations b2 massScale centralSunOnly sunIndex
  List.zipWith (fun b ai =>
    { b with velocity := ⟨(b.velocity.x + ai.x * (h * 0.5)) * velScale,
                          (b.velocity.y + ai.y * (h * 0.5)) * velScale,
                          (b.velocity.z + ai.z * (h * 0.5)) * velScale⟩ }) b2 a2

/-- Replace the positions of `bodies` by `pos` pointwise, modelling the
in-place position overwrite done by `computeAccel` inside `stepRK4`. -/
noncomputable def setPositions (bodies : List Body) (pos : List Vec3) : List Body :=
  List.zipWith (fun b p => { b with position := p }) bodies pos

/-- Pointwise `a + s * b` on parallel vector lists, the shape of every RK4
stage combination in the source. -/
noncomputable def axpy (s : ℝ) (a b : List Vec3) : List Vec3 :=
  List.zipWith (fun ai bi =>
    ⟨ai.x + s * bi.x, ai.y + s * bi.y, ai.z + s * bi.z⟩) a b

/-- From `src/unnamed/part_007` (`stepRK4`): classical RK4 on the coupled
position/velocity state with `h = dt * timeScale` in a single step;
`computeAccel` reassigns positions and reuses `accumulateAccelerations`;
the combined velocity is multiplied by `velScale` at the end. -/
noncomputable def stepRK4
    (bodies : List Body) (dt timeScale massScale velScale : ℝ)
    (centralSunOnly : Bool) (sunIndex : ℕ) : List Body :=
  let h := dt * timeScale
  let N := bodies.length
  let x := bodies.map Body.position
  let v := bodies.map Body.velocity
  let computeAccel := fun (pos : List Vec3) =>
    accumulateAccelerations (setPositions bodies pos) massScale centralSunOnly sunIndex
  let a1 := computeAccel x
  let x2 := axpy (0.5 * h) x v
  let v2 := axpy (0.5 * h) v a1
  let a2 := computeAccel x2
  let x3 := axpy (0.5 * h) x v2
  let v3 := axpy (0.5 * h) v a2
  let a3 := computeAccel x3
  let x4 := axpy h x v3
  let v4 := axpy h v a3
  let a4 := computeAccel x4
  (List.range N).map (fun i =>
    let b := bodies.getD i dB
    let xi := x.getD i ⟨0, 0, 0⟩
    let vi := v.getD i ⟨0, 0, 0⟩
    let v2i := v2.getD i ⟨0, 0, 0⟩
    let v3i := v3.getD i ⟨0, 0, 0⟩
    let v4i := v4.getD i ⟨0, 0, 0⟩
    let a1i := a1.getD i ⟨0, 0, 0⟩
    let a2i := a2.getD i ⟨0, 0, 0⟩
    let a3i := a3.getD i ⟨0, 0, 0⟩
    let a4i := a4.getD i ⟨0, 0, 0⟩
    { b with
      position := ⟨xi.x + (h / 6) * (vi.x + 2 * v2i.x + 2 * v3i.x + v4i.x),
                   xi.y + (h / 6) * (vi.y + 2 * v2i.y + 2 * v3i.y + v4i.y),
                   xi.z + (h / 6) * (vi.z + 2 * v2i.z + 2 * v3i.z + v4i.z)⟩,
      velocity := ⟨(vi.x + (h / 6) * (a1i.x + 2 * a2i.x + 2 * a3i.x + a4i.x)) * velScale,
                   (vi.y + (h / 6) * (a1i.y + 2 * a2i.y + 2 * a3i.y + a4i.y)) * velScale,
                   (vi.z + (h / 6) * (a1i.z + 2 * a2i.z + 2 * a3i.z + a4i.z)) * velScale⟩ })

end PhysLF

namespace BodiesLib

/-- GEO radius in AU from `src/lib/bodies.ts` (`ensurePayloadGEO`):
`42164000 / 1.495978707e11`. -/
noncomputable def R_GEO_AU : ℝ := 42164000 / 1.495978707e11

/-- From `src/lib/bodies.ts` (`ensurePayload`): replace the body whose id is
`"payload"` by the given payload record, or append it if absent. -/
noncomputable def ensurePayload
    (bodies : List Body) (startAt v0 : Vec3) : List Body :=
  let payload : Body :=
    { id := "payload", name := "Payload", color := "#ff2d55", mass := 0,
      position := startAt, velocity := v0, radius := 0.006 }
  match bodies.findIdx? (fun b => b.id = "payload") with
  | some i => bodies.set i payload
  | none => bodies ++ [payload]

/-- From `src/lib/bodies.ts` (`ensurePayloadGEO`): find the body whose id is
`"earth"`; if absent, return the array unchanged; otherwise spawn/replace the
payload on a circular GEO orbit around it. -/
noncomputable def ensurePayloadGEO (bodies : List Body) : List Body :=
  match bodies.findIdx? (fun b => b.id = "earth") with
  | none => bodies
  | some ei =>
    let earth := bodies.getD ei dB
    let pos : Vec3 := ⟨earth.position.x, earth.position.y + R_GEO_AU, earth.position.z⟩
    let vCirc := Real.sqrt (G * earth.mass / R_GEO_AU)
    let vel : Vec3 := ⟨earth.velocity.x + vCirc, earth.velocity.y, earth.velocity.z⟩
    ensurePayload bodies pos vel

end BodiesLib

namespace Canvas

/-- A per-body trail ring buffer from `src/components/OrbitCanvas.tsx`: the
`Float32Array` of `K` stored positions (`trailsRef`) together with the write
cursor (`trailIdxRef`). -/
structure TrailBuffer where
  buf : List Vec3
  idx : ℕ

/-- Well-formedness of a capacity-`K` trail buffer: the backing store holds
exactly `K` samples and the cursor is in range. -/
def TrailWF (K : ℕ) (st : TrailBuffer) : Prop :=
  st.buf.length = K ∧ st.idx < K

/-- From `src/components/OrbitCanvas.tsx` (`initTrail` plus the fresh-buffer
allocation): a capacity-`K` buffer pre-filled with the body's current
position, cursor at `0`. -/
def initTrail (K : ℕ) (p0 : Vec3) : TrailBuffer :=
  { buf := List.replicate K p0, idx := 0 }

/-- From `src/components/OrbitCanvas.tsx` (`useFrame` trail update): store
the position at the cursor, then advance the cursor by one modulo the
capacity `K`. -/
def writeTrail (K : ℕ) (st : TrailBuffer) (p : Vec3) : TrailBuffer :=
  { buf := st.buf.set st.idx p, idx := (st.idx + 1) % K }

/-- Repeated `writeTrail` over a list of samples, oldest first. -/
def writeMany (K : ℕ) (st : TrailBuffer) (ps : List Vec3) : TrailBuffer :=
  ps.foldl (writeTrail K) st

/-- From `src/components/OrbitCanvas.tsx` (trail rendering): the linearized
read `ordered = arr.slice(idx) ++ arr.slice(0, idx)`, rotating the ring so
the oldest live sample comes first. -/
def linearize (st : TrailBuffer) : List Vec3 :=
  st.buf.drop st.idx ++ st.buf.take st.idx

/-- From `src/components/OrbitCanvas.tsx` (`Scene`, frame callback):
`safeDt = Math.min(dt, 0.25)`, the caller-side clamp on the configured time
step. -/
noncomputable def safeDt (dt : ℝ) : ℝ := min dt 0.25

/-- From `src/components/OrbitCanvas.tsx` (`Scene`, frame callback):
`safeScale = Math.min(timeScale, 100)`, the caller-side clamp on the time
scale. -/
noncomputable def safeScale (timeScale : ℝ) : ℝ := min timeScale 100

end Canvas

namespace SpecModel

/-- Modelled from the spec: the fixed substep ceiling `hMax` of section 4.2
("`hMax` is a fixed ceiling (design default ~0.05 simulated days)").  No
such constant exists anywhere under `src/`. -/
noncomputable def hMax : ℝ := 0.05

/-- Modelled from the spec: the mandated subdivision of a frame advance `H`
into `n = ceil(H / hMax)` equal substeps of size `H / n` (section 4.2). -/
noncomputable def specSubstepSizes (H : ℝ) : List ℝ :=
  let n := (⌈H / hMax⌉).toNat
  List.replicate n (H / n)

/-- The integration step sizes that `PhysLF.stepLeapfrog` actually applies:
the source computes `h = dt * timeScale` once and performs a single
kick-drift-kick of that full size, with no internal subdivision. -/
noncomputable def leapfrogStepSizes (dt timeScale : ℝ) : List ℝ :=
  [dt * timeScale]

/-- One kick-drift-kick leapfrog application of an explicit step size `h`,
with the same force evaluation and trailing `velScale` factor as
`PhysLF.stepLeapfrog`. -/
noncomputable def leapfrogSubstep
    (massScale velScale : ℝ) (centralSunOnly : Bool) (sunIndex : ℕ)
    (bodies : List Body) (h : ℝ) : List Body :=
  let a1 := PhysLF.accumulateAccelerations bodies massScale centralSunOnly sunIndex
  let b1 := List.zipWith (fun b ai =>
    { b with velocity := ⟨b.velocity.x + ai.x * (h * 0.5),
                          b.velocity.y + ai.y * (h * 0.5),
                          b.velocity.z + ai.z * (h * 0.5)⟩ }) bodies a1
  let b2 := b1.map (fun b =>
    { b with position := ⟨b.position.x + b.velocity.x * h,
                          b.position.y + b.velocity.y * h,
                          b.position.z + b.velocity.z * h⟩ })
  let a2 := PhysLF.accumulateAccelerations b2 massScale centralSunOnly sunIndex
  List.zipWith (fun b ai =>
    { b with velocity := ⟨(b.velocity.x + ai.x * (h * 0.5)) * velScale,
                          (b.velocity.y + ai.y * (h * 0.5)) * velScale,
                          (b.velocity.z + ai.z * (h * 0.5)) * velScale⟩ }) b2 a2

/-- Run a sequence of leapfrog substeps of the given sizes. -/
noncomputable def runSubsteps
    (massScale velScale : ℝ) (centralSunOnly : Bool) (sunIndex : ℕ)
    (bodies : List Body) (sizes : List ℝ) : List Body :=
  sizes.foldl (leapfrogSubstep massScale velScale centralSunOnly sunIndex) bodies

/-- The symmetric kick-drift-kick scheme exactly as the spec states it in
section 4.2 (with `velScale = 1` and no auxiliary accelerations): every
velocity is incremented by `a(x) * h/2`, every position by `v * h`, and the
velocity again by `a(x') * h/2`, where `a` is the full gravitational
acceleration (`Phys0.accelFor`) at the stated positions. -/
noncomputable def kdkSpecStep (bodies : List Body) (h ms : ℝ) : List Body :=
  let a1 := (List.range bodies.length).map (fun i => Phys0.accelFor bodies i ms)
  let b1 := List.zipWith (fun b ai =>
    { b with velocity := ⟨b.velocity.x + ai.x * h / 2,
                          b.velocity.y + ai.y * h / 2,
                          b.velocity.z + ai.z * h / 2⟩ }) bodies a1
  let b2 := b1.map (fun b =>
    { b with position := ⟨b.position.x + b.velocity.x * h,
                          b.position.y + b.velocity.y * h,
                          b.position.z + b.velocity.z * h⟩ })
  let a2 := (List.range b2.length).map (fun i => Phys0.accelFor b2 i ms)
  List.zipWith (fun b ai =>
    { b with velocity := ⟨b.velocity.x + ai.x * h / 2,
                          b.velocity.y + ai.y * h / 2,
                          b.velocity.z + ai.z * h / 2⟩ }) b2 a2

/-- Multiply every body's stored velocity by `c`, leaving positions and all
other fields unchanged.  Used to state how `velScale` actually acts. -/
noncomputable def scaleVelocities (c : ℝ) (bodies : List Body) : List Body :=
  bodies.map (fun b =>
    { b with velocity := ⟨b.velocity.x * c, b.velocity.y * c, b.velocity.z * c⟩ })

end SpecModel

/-- Convenience constructor for concrete test bodies. -/
noncomputable def mkBody (i : String) (m : ℝ) (p v : Vec3) : Body :=
  { id := i, name := i, color := "#fff", mass := m,
    position := p, velocity := v, radius := 0.01 }

/-- A single free body with unit velocity along `x`, used to exercise the
integrators where all accelerations vanish (no pairs). -/
noncomputable def exFree : List Body :=
  [mkBody "p" 0 ⟨0, 0, 0⟩ ⟨1, 0, 0⟩]

/-- A two-body configuration: a unit-mass sun at the origin and a massless
planet at rest on the `x` axis at 1 AU. -/
noncomputable def exSunPlanet : List Body :=
  [mkBody "sun" 1 ⟨0, 0, 0⟩ ⟨0, 0, 0⟩, mkBody "p" 0 ⟨1, 0, 0⟩ ⟨0, 0, 0⟩]

/-- A degenerate seeding configuration: a unit-mass sun at the origin and a
body directly above it on the `z` axis (radius parallel to the ecliptic
normal), at distance 2. -/
noncomputable def exDegenerate : List Body :=
  [mkBody "sun" 1 ⟨0, 0, 0⟩ ⟨0, 0, 0⟩, mkBody "p" 1 ⟨0, 0, 2⟩ ⟨3, 3, 3⟩]

/-- Two test particles (mass zero) with nonzero velocities: total mass is
exactly zero. -/
noncomputable def exMassless : List Body :=
  [mkBody "a" 0 ⟨0, 0, 0⟩ ⟨1, 2, 3⟩, mkBody "b" 0 ⟨1, 0, 0⟩ ⟨4, 5, 6⟩]

/-- Two unit-mass bodies with unequal velocities: total mass 2, nonzero net
momentum. -/
noncomputable def exMassive : List Body :=
  [mkBody "a" 1 ⟨0, 0, 0⟩ ⟨1, 0, 0⟩, mkBody "b" 1 ⟨1, 0, 0⟩ ⟨0, 0, 0⟩]

/-- Six concrete positions used to exercise the trail buffer. -/
noncomputable def exTrail : List Vec3 :=
  [⟨1, 0, 0⟩, ⟨2, 0, 0⟩, ⟨3, 0, 0⟩, ⟨4, 0, 0⟩, ⟨5, 0, 0⟩, ⟨6, 0, 0⟩]

theorem G_pos : 0 < G := by norm_num [G]

theorem SOFTENING2_pos : 0 < SOFTENING2 := by norm_num [SOFTENING2]

theorem hypot3_nonneg (x y z : ℝ) : 0 ≤ hypot3 x y z := Real.sqrt_nonneg _

theorem hypot3_eq_zero_iff (x y z : ℝ) :
    hypot3 x y z = 0 ↔ x * x + y * y + z * z = 0 := by
  unfold hypot3
  constructor
  · intro h
    have hnn : 0 ≤ x * x + y * y + z * z := by
      nlinarith [mul_self_nonneg x, mul_self_nonneg y, mul_self_nonneg z]
    exact Real.sqrt_eq_zero hnn |>.mp h
  · intro h
    rw [h, Real.sqrt_zero]

theorem hypot3_sq (x y z : ℝ) : hypot3 x y z * hypot3 x y z = x * x + y * y + z * z := by
  unfold hypot3
  exact Real.mul_self_sqrt (by
    nlinarith [mul_self_nonneg x, mul_self_nonneg y, mul_self_nonneg z])

theorem getD_map_range {α : Type} (f : ℕ → α) (n i : ℕ) (h : i < n) (d : α) :
    ((List.range n).map f).getD i d = f i := by
  have h1 : i < ((List.range n).map f).length := by simpa using h
  rw [List.getD_eq_getElem _ _ h1]
  simp

theorem getD_range_self {α : Type} (l : List α) (d : α) :
    (List.range l.length).map (fun i => l.getD i d) = l := by
  apply List.ext_getElem
  · simp
  · intro i h1 h2
    have hl : i < l.length := by simpa using h2
    simp [List.getD_eq_getElem l d hl, List.getElem?_eq_getElem hl]

theorem drop_append_len {α : Type} (l1 l2 : List α) (n : ℕ) :
    (l1 ++ l2).drop (l1.length + n) = l2.drop n := by
  simp [List.drop_append]

theorem take_append_len {α : Type} (l1 l2 : List α) (n : ℕ) :
    (l1 ++ l2).take (l1.length + n) = l1 ++ l2.take n := by
  simp [List.take_append]

theorem findIdx?_eq_none_of_forall {α : Type} (l : List α) (pred : α → Bool)
    (h : ∀ x ∈ l, ¬ pred x) : l.findIdx? pred = none := by
  rw [List.findIdx?_eq_none_iff]
  exact fun x hx => by simpa using h x hx

namespace PhysLF

theorem sum_vx_sub (bodies : List Body) (c1 c2 c3 : ℝ) :
    ((bodies.map (fun b => { b with velocity :=
        (⟨b.velocity.x - c1, b.velocity.y - c2, b.velocity.z - c3⟩ : Vec3) })).map
      (fun b => b.mass * b.velocity.x)).sum
      = (bodies.map (fun b => b.mass * b.velocity.x)).sum - (bodies.map Body.mass).sum * c1 := by
  induction bodies with
  | nil => simp
  | cons b t ih =>
    simp only [List.map_cons, List.sum_cons, ih]
    ring

theorem sum_vy_sub (bodies : List Body) (c1 c2 c3 : ℝ) :
    ((bodies.map (fun b => { b with velocity :=
        (⟨b.velocity.x - c1, b.velocity.y - c2, b.velocity.z - c3⟩ : Vec3) })).map
      (fun b => b.mass * b.velocity.y)).sum
      = (bodies.map (fun b => b.mass * b.velocity.y)).sum - (bodies.map Body.mass).sum * c2 := by
  induction bodies with
  | nil => simp
  | cons b t ih =>
    simp only [List.map_cons, List.sum_cons, ih]
    ring

theorem sum_vz_sub (bodies : List Body) (c1 c2 c3 : ℝ) :
    ((bodies.map (fun b => { b with velocity :=
        (⟨b.velocity.x - c1, b.velocity.y - c2, b.velocity.z - c3⟩ : Vec3) })).map
      (fun b => b.mass * b.velocity.z)).sum
      = (bodies.map (fun b => b.mass * b.velocity.z)).sum - (bodies.map Body.mass).sum * c3 := by
  induction bodies with
  | nil => simp
  | cons b t ih =>
    simp only [List.map_cons, List.sum_cons, ih]
    ring

end PhysLF

/-- C10: if the total mass of all bodies is exactly zero, `zeroSystemMomentum`
returns the array without modifying any body's velocity, so the division by
the total mass is never performed on zero and the operation is total. -/
theorem C10_zero_total_mass_noop (bodies : List Body)
    (h : PhysLF.totalMass bodies = 0) :
    PhysLF.zeroSystemMomentum bodies = bodies := by
  unfold PhysLF.zeroSystemMomentum
  rw [if_pos h]

theorem C10_witness :
    PhysLF.totalMass exMassless = 0 ∧
      PhysLF.zeroSystemMomentum exMassless = exMassless := by
  have h : PhysLF.totalMass exMassless = 0 := by
    norm_num [PhysLF.totalMass, exMassless, mkBody]
  exact ⟨h, C10_zero_total_mass_noop exMassless h⟩

/-- C4: for every body array with positive total mass, after
`zeroSystemMomentum` the mass-weighted sum of all velocities (the system
momentum) is exactly the zero vector: the operation subtracts the momentum
divided by the total mass from every body's velocity. -/
theorem C4_momentum_zeroed (bodies : List Body)
    (h : 0 < PhysLF.totalMass bodies) :
    PhysLF.momX (PhysLF.zeroSystemMomentum bodies) = 0 ∧
      PhysLF.momY (PhysLF.zeroSystemMomentum bodies) = 0 ∧
      PhysLF.momZ (PhysLF.zeroSystemMomentum bodies) = 0 := by
  have hne : PhysLF.totalMass bodies ≠ 0 := ne_of_gt h
  unfold PhysLF.zeroSystemMomentum
  rw [if_neg hne]
  refine ⟨?_, ?_, ?_⟩
  · unfold PhysLF.momX
    rw [PhysLF.sum_vx_sub]
    show PhysLF.momX bodies - PhysLF.totalMass bodies *
      (PhysLF.momX bodies / PhysLF.totalMass bodies) = 0
    field_simp
  · unfold PhysLF.momY
    rw [PhysLF.sum_vy_sub]
    show PhysLF.momY bodies - PhysLF.totalMass bodies *
      (PhysLF.momY bodies / PhysLF.totalMass bodies) = 0
    field_simp
  · unfold PhysLF.momZ
    rw [PhysLF.sum_vz_sub]
    show PhysLF.momZ bodies - PhysLF.totalMass bodies *
      (PhysLF.momZ bodies / PhysLF.totalMass bodies) = 0
    field_simp

theorem C4_witness :
    0 < PhysLF.totalMass exMassive ∧
      PhysLF.momX (PhysLF.zeroSystemMomentum exMassive) = 0 ∧
      PhysLF.momY (PhysLF.zeroSystemMomentum exMassive) = 0 ∧
      PhysLF.momZ (PhysLF.zeroSystemMomentum exMassive) = 0 := by
  have h : 0 < PhysLF.totalMass exMassive := by
    norm_num [PhysLF.totalMass, exMassive, mkBody]
  exact ⟨h, C4_momentum_zeroed exMassive h⟩

/-- C9: an operation whose referent body id is absent is a silent no-op:
`seedCircularVelocities` with an unknown central id changes nothing, and
`ensurePayloadGEO` with no `"earth"` body changes nothing. -/
theorem C9_missing_id_noop :
    (∀ (bodies : List Body) (sunId : String) (cw : Bool),
        (∀ b ∈ bodies, b.id ≠ sunId) →
        PhysLF.seedCircularVelocities bodies sunId cw = bodies) ∧
    (∀ bodies : List Body,
        (∀ b ∈ bodies, b.id ≠ "earth") →
        BodiesLib.ensurePayloadGEO bodies = bodies) := by
  constructor
  · intro bodies sunId cw hne
    have hnone : bodies.findIdx? (fun b => b.id = sunId) = none :=
      findIdx?_eq_none_of_forall bodies _ (fun x hx => by simpa using hne x hx)
    unfold PhysLF.seedCircularVelocities
    rw [hnone]
  · intro bodies hne
    have hnone : bodies.findIdx? (fun b => b.id = "earth") = none :=
      findIdx?_eq_none_of_forall bodies _ (fun x hx => by simpa using hne x hx)
    unfold BodiesLib.ensurePayloadGEO
    rw [hnone]

theorem C9_witness :
    PhysLF.seedCircularVelocities exMassive "sun" false = exMassive ∧
      BodiesLib.ensurePayloadGEO exMassive = exMassive := by
  refine ⟨C9_missing_id_noop.1 exMassive "sun" false ?_,
          C9_missing_id_noop.2 exMassive ?_⟩
  · intro b hb
    rcases List.mem_cons.mp hb with rfl | hb2
    · simp [mkBody]
    · rcases List.mem_singleton.mp hb2 with rfl
      simp [mkBody]
  · intro b hb
    rcases List.mem_cons.mp hb with rfl | hb2
    · simp [mkBody]
    · rcases List.mem_singleton.mp hb2 with rfl
      simp [mkBody]

namespace Canvas

theorem linearize_writeTrail (K : ℕ) (st : TrailBuffer) (p : Vec3)
    (hwf : TrailWF K st) :
    linearize (writeTrail K st p) = (linearize st).drop 1 ++ [p] ∧
      TrailWF K (writeTrail K st p) := by
  obtain ⟨hlen, hidx⟩ := hwf
  have hK : 0 < K := Nat.lt_of_le_of_lt (Nat.zero_le _) hidx
  have hidx' : st.idx < st.buf.length := by rw [hlen]; exact hidx
  have hset : st.buf.set st.idx p
      = st.buf.take st.idx ++ p :: st.buf.drop (st.idx + 1) :=
    List.set_eq_take_cons_drop p hidx'
  have htklen : (st.buf.take st.idx).length = st.idx := by
    simp [Nat.le_of_lt hidx']
  have hd2 := drop_append_len (st.buf.take st.idx) (p :: st.buf.drop (st.idx + 1)) 1
  have htk2 := take_append_len (st.buf.take st.idx) (p :: st.buf.drop (st.idx + 1)) 1
  rw [htklen] at hd2 htk2
  refine ⟨?_, ?_, ?_⟩
  · rcases Nat.lt_or_ge (st.idx + 1) K with hlt | hge
    · have hmod : (st.idx + 1) % K = st.idx + 1 := Nat.mod_eq_of_lt hlt
      unfold linearize writeTrail
      simp only [hmod, hset]
      rw [hd2, htk2]
      have e1 : (p :: st.buf.drop (st.idx + 1)).drop 1 = st.buf.drop (st.idx + 1) := rfl
      have e2 : (p :: st.buf.drop (st.idx + 1)).take 1 = [p] := rfl
      rw [e1, e2, List.drop_eq_getElem_cons hidx', List.cons_append]
      have e3 : ∀ (a : Vec3) (l : List Vec3), (a :: l).drop 1 = l := fun _ _ => rfl
      rw [e3, List.append_assoc]
    · have heq : st.idx + 1 = K := le_antisymm (Nat.succ_le_of_lt hidx) hge
      have hmod : (st.idx + 1) % K = 0 := by rw [heq]; exact Nat.mod_self K
      have hdropK : st.buf.drop (st.idx + 1) = [] := by
        apply List.drop_eq_nil_of_le
        rw [hlen, heq]
      unfold linearize writeTrail
      simp only [hmod, List.drop_zero, List.take_zero, List.append_nil]
      rw [hset, List.drop_eq_getElem_cons hidx']
      simp [hdropK]
  · simp [writeTrail, hlen]
  · simp [writeTrail, Nat.mod_lt _ hK]

theorem linearize_writeMany (K : ℕ) (ps : List Vec3) :
    ∀ st : TrailBuffer, TrailWF K st →
      linearize (writeMany K st ps) = (linearize st ++ ps).drop ps.length ∧
        TrailWF K (writeMany K st ps) := by
  induction ps with
  | nil =>
    intro st h
    simpa [writeMany] using h
  | cons q qs ih =>
    intro st h
    have hstep := linearize_writeTrail K st q h
    have hrec := ih (writeTrail K st q) hstep.2
    have hmany : writeMany K st (q :: qs) = writeMany K (writeTrail K st q) qs := rfl
    constructor
    · rw [hmany, hrec.1, hstep.1]
      obtain ⟨a, rest, hcons⟩ : ∃ a rest, linearize st = a :: rest := by
        have h2 := h.2
        have hlenlin : (linearize st).length = K := by
          unfold linearize
          rw [List.length_append, List.length_drop, List.length_take, h.1,
              min_eq_left (Nat.le_of_lt h.2)]
          omega
        cases hl : linearize st with
        | nil =>
          exfalso
          rw [hl] at hlenlin
          simp at hlenlin
          omega
        | cons a rest => exact ⟨a, rest, rfl⟩
      rw [hcons]
      simp [List.append_assoc]
    · rw [hmany]
      exact hrec.2

theorem linearize_initTrail (K : ℕ) (p0 : Vec3) :
    linearize (initTrail K p0) = List.replicate K p0 := by
  simp [linearize, initTrail]

theorem initTrail_wf (K : ℕ) (hK : 1 ≤ K) (p0 : Vec3) :
    TrailWF K (initTrail K p0) := by
  constructor
  · simp [initTrail]
  · simpa [initTrail] using hK

end Canvas

/-- C7: for a capacity-`K` trail buffer (`K >= 1`): each write stores the
position at the cursor and advances the cursor by one modulo `K`, each write
drops the oldest retained sample of the linearized view and appends the new
one, the linearized read always has exactly `K` entries, and after `K + 5`
writes it equals the last `K` positions written, in write order. -/
theorem C7_trail_buffer (K : ℕ) (hK : 1 ≤ K) (p0 : Vec3) (ps : List Vec3)
    (hlen : ps.length = K + 5) :
    Canvas.linearize (Canvas.writeMany K (Canvas.initTrail K p0) ps) = ps.drop 5 ∧
      (Canvas.linearize (Canvas.writeMany K (Canvas.initTrail K p0) ps)).length = K ∧
      ∀ st : Canvas.TrailBuffer, Canvas.TrailWF K st → ∀ p : Vec3,
        (Canvas.writeTrail K st p).buf = st.buf.set st.idx p ∧
          (Canvas.writeTrail K st p).idx = (st.idx + 1) % K ∧
          Canvas.linearize (Canvas.writeTrail K st p)
            = (Canvas.linearize st).drop 1 ++ [p] := by
  have hwf0 := Canvas.initTrail_wf K hK p0
  have hmain := Canvas.linearize_writeMany K ps (Canvas.initTrail K p0) hwf0
  refine ⟨?_, ?_, ?_⟩
  · rw [hmain.1, Canvas.linearize_initTrail, hlen]
    rw [show K + 5 = (List.replicate K p0).length + 5 from by simp]
    rw [List.drop_append]
  · have hwf := hmain.2
    have hwf2 := hwf.2
    unfold Canvas.linearize
    rw [List.length_append, List.length_drop, List.length_take, hwf.1,
        min_eq_left (Nat.le_of_lt hwf.2)]
    omega
  · intro st hst p
    have := Canvas.linearize_writeTrail K st p hst
    exact ⟨rfl, rfl, this.1⟩

theorem C7_witness :
    Canvas.linearize (Canvas.writeMany 1 (Canvas.initTrail 1 ⟨0, 0, 0⟩) exTrail)
        = exTrail.drop 5 ∧
      (Canvas.linearize (Canvas.writeMany 1 (Canvas.initTrail 1 ⟨0, 0, 0⟩) exTrail)).length = 1 ∧
      ∀ st : Canvas.TrailBuffer, Canvas.TrailWF 1 st → ∀ p : Vec3,
        (Canvas.writeTrail 1 st p).buf = st.buf.set st.idx p ∧
          (Canvas.writeTrail 1 st p).idx = (st.idx + 1) % 1 ∧
          Canvas.linearize (Canvas.writeTrail 1 st p)
            = (Canvas.linearize st).drop 1 ++ [p] :=
  C7_trail_buffer 1 (by norm_num) ⟨0, 0, 0⟩ exTrail (by norm_num [exTrail])

theorem sum_pairs (N k : ℕ) (hk : k < N) (A B : ℕ → ℕ → ℝ) :
    (∑ p ∈ PhysLF.pairFinset N,
        ((if k = p.1 then A p.1 p.2 else 0) + (if k = p.2 then B p.1 p.2 else 0)))
      = (∑ j ∈ Finset.range N, if k < j then A k j else 0)
        + (∑ i ∈ Finset.range N, if i < k then B i k else 0) := by
  unfold PhysLF.pairFinset
  rw [Finset.sum_filter, Finset.sum_product]
  have hsplit : ∀ i j : ℕ,
      (if i < j then (if k = i then A i j else 0) + (if k = j then B i j else 0) else 0)
        = (if k = i then (if i < j then A i j else 0) else 0)
          + (if k = j then (if i < j then B i j else 0) else 0) := by
    intro i j
    by_cases h1 : i < j <;> by_cases h2 : k = i <;> by_cases h3 : k = j <;>
      simp [h1, h2, h3]
  calc
    (∑ i ∈ Finset.range N, ∑ j ∈ Finset.range N,
        if i < j then (if k = i then A i j else 0) + (if k = j then B i j else 0) else 0)
        = ∑ i ∈ Finset.range N, ∑ j ∈ Finset.range N,
            ((if k = i then (if i < j then A i j else 0) else 0)
              + (if k = j then (if i < j then B i j else 0) else 0)) := by
          refine Finset.sum_congr rfl fun i _ => Finset.sum_congr rfl fun j _ => hsplit i j
    _ = (∑ i ∈ Finset.range N, ∑ j ∈ Finset.range N,
            (if k = i then (if i < j then A i j else 0) else 0))
          + (∑ i ∈ Finset.range N, ∑ j ∈ Finset.range N,
            (if k = j then (if i < j then B i j else 0) else 0)) := by
          rw [← Finset.sum_add_distrib]
          refine Finset.sum_congr rfl fun i _ => ?_
          rw [Finset.sum_add_distrib]
    _ = (∑ j ∈ Finset.range N, if k < j then A k j else 0)
          + (∑ i ∈ Finset.range N, if i < k then B i k else 0) := by
          congr 1
          · have hpull : ∀ i ∈ Finset.range N,
                (∑ j ∈ Finset.range N, if k = i then (if i < j then A i j else 0) else 0)
                  = if k = i then (∑ j ∈ Finset.range N, if i < j then A i j else 0) else 0 := by
              intro i _
              by_cases h : k = i <;> simp [h]
            rw [Finset.sum_congr rfl hpull, Finset.sum_ite_eq]
            simp [hk]
          · refine Finset.sum_congr rfl fun i _ => ?_
            rw [Finset.sum_ite_eq]
            simp [hk]

theorem naive_split (N k : ℕ) (T : ℕ → ℝ) :
    (∑ j ∈ Finset.range N, if j = k then 0 else T j)
      = (∑ j ∈ Finset.range N, if k < j then T j else 0)
        + (∑ j ∈ Finset.range N, if j < k then T j else 0) := by
  rw [← Finset.sum_add_distrib]
  refine Finset.sum_congr rfl fun j _ => ?_
  rcases lt_trichotomy j k with h | h | h
  · have h1 : j ≠ k := by omega
    have h2 : ¬ k < j := by omega
    simp [h1, h2, h]
  · simp [h]
  · have h1 : j ≠ k := by omega
    have h2 : ¬ j < k := by omega
    simp [h1, h2, h]

theorem pairAccel1_eq_accelTerm (bodies : List Body) (ms : ℝ) (i j : ℕ) :
    PhysLF.pairAccel1 bodies ms i j = Phys0.accelTerm bodies ms i j := by
  simp only [PhysLF.pairAccel1, Phys0.accelTerm]
  refine Vec3.ext ?_ ?_ ?_ <;> ring

theorem pairAccel2_eq_accelTerm (bodies : List Body) (ms : ℝ) (i j : ℕ) :
    PhysLF.pairAccel2 bodies ms i j = Phys0.accelTerm bodies ms j i := by
  simp only [PhysLF.pairAccel2, Phys0.accelTerm]
  refine Vec3.ext ?_ ?_ ?_ <;> ring_nf

theorem accumulate_false_eq_accelFor (bodies : List Body) (ms : ℝ) (si : ℕ) :
    PhysLF.accumulateAccelerations bodies ms false si
      = (List.range bodies.length).map (fun i => Phys0.accelFor bodies i ms) := by
  unfold PhysLF.accumulateAccelerations
  simp only [Bool.false_eq_true, if_false]
  refine List.map_congr_left fun k hk => ?_
  have hkN : k < bodies.length := List.mem_range.mp hk
  have hx := sum_pairs bodies.length k hkN
    (fun i j => (PhysLF.pairAccel1 bodies ms i j).x)
    (fun i j => (PhysLF.pairAccel2 bodies ms i j).x)
  have hy := sum_pairs bodies.length k hkN
    (fun i j => (PhysLF.pairAccel1 bodies ms i j).y)
    (fun i j => (PhysLF.pairAccel2 bodies ms i j).y)
  have hz := sum_pairs bodies.length k hkN
    (fun i j => (PhysLF.pairAccel1 bodies ms i j).z)
    (fun i j => (PhysLF.pairAccel2 bodies ms i j).z)
  refine Vec3.ext ?_ ?_ ?_
  · show (∑ p ∈ PhysLF.pairFinset bodies.length,
        (PhysLF.pairContrib bodies ms p.1 p.2 k).x) = (Phys0.accelFor bodies k ms).x
    unfold PhysLF.pairContrib
    rw [hx]
    show _ = ∑ j ∈ Finset.range bodies.length,
        if j = k then 0 else (Phys0.accelTerm bodies ms k j).x
    rw [naive_split bodies.length k]
    congr 1
    · refine Finset.sum_congr rfl fun j _ => ?_
      rw [pairAccel1_eq_accelTerm]
    · refine Finset.sum_congr rfl fun i _ => ?_
      rw [pairAccel2_eq_accelTerm]
  · show (∑ p ∈ PhysLF.pairFinset bodies.length,
        (PhysLF.pairContrib bodies ms p.1 p.2 k).y) = (Phys0.accelFor bodies k ms).y
    unfold PhysLF.pairContrib
    rw [hy]
    show _ = ∑ j ∈ Finset.range bodies.length,
        if j = k then 0 else (Phys0.accelTerm bodies ms k j).y
    rw [naive_split bodies.length k]
    congr 1
    · refine Finset.sum_congr rfl fun j _ => ?_
      rw [pairAccel1_eq_accelTerm]
    · refine Finset.sum_congr rfl fun i _ => ?_
      rw [pairAccel2_eq_accelTerm]
  · show (∑ p ∈ PhysLF.pairFinset bodies.length,
        (PhysLF.pairContrib bodies ms p.1 p.2 k).z) = (Phys0.accelFor bodies k ms).z
    unfold PhysLF.pairContrib
    rw [hz]
    show _ = ∑ j ∈ Finset.range bodies.length,
        if j = k then 0 else (Phys0.accelTerm bodies ms k j).z
    rw [naive_split bodies.length k]
    congr 1
    · refine Finset.sum_congr rfl fun j _ => ?_
      rw [pairAccel1_eq_accelTerm]
    · refine Finset.sum_congr rfl fun i _ => ?_
      rw [pairAccel2_eq_accelTerm]

/-- C6: for every body array and `massScale`, the pairwise-symmetric force
accumulation of `accumulateAccelerations` (each unordered pair computed once
and applied with opposite sign and the partner's mass to each side) produces
exactly the same acceleration vector for every body as the naive per-body
double loop `accelFor` that sums `G * mass_j * massScale * r_vec * invR3`
over all `j != i` with softened `r^2`. -/
theorem C6_pairwise_eq_naive (bodies : List Body) (ms : ℝ) (si : ℕ) :
    PhysLF.accumulateAccelerations bodies ms false si
      = (List.range bodies.length).map (fun i => Phys0.accelFor bodies i ms) :=
  accumulate_false_eq_accelFor bodies ms si

theorem zipWith_ext {α β γ : Type} (f g : α → β → γ) (h : ∀ a b, f a b = g a b) :
    ∀ (l1 : List α) (l2 : List β), List.zipWith f l1 l2 = List.zipWith g l1 l2 := by
  intro l1
  induction l1 with
  | nil => intro l2; simp
  | cons a t ih =>
    intro l2
    cases l2 with
    | nil => simp
    | cons b u => simp [h, ih]

theorem pairFinset_one : PhysLF.pairFinset 1 = ∅ := by decide

theorem accumulate_singleton (b : Body) (ms : ℝ) (si : ℕ) :
    PhysLF.accumulateAccelerations [b] ms false si = [⟨0, 0, 0⟩] := by
  unfold PhysLF.accumulateAccelerations
  simp [pairFinset_one]

theorem stepLeapfrog_velScale
    (bodies : List Body) (dt ts ms vs : ℝ) (cso : Bool) (si : ℕ) :
    PhysLF.stepLeapfrog bodies dt ts ms vs cso si
      = SpecModel.scaleVelocities vs (PhysLF.stepLeapfrog bodies dt ts ms 1 cso si) := by
  simp only [PhysLF.stepLeapfrog, SpecModel.scaleVelocities, List.map_zipWith]
  apply zipWith_ext
  intro b ai
  refine Body.ext rfl rfl rfl rfl rfl ?_ rfl
  refine Vec3.ext ?_ ?_ ?_ <;> ring

theorem stepRK4_velScale
    (bodies : List Body) (dt ts ms vs : ℝ) (cso : Bool) (si : ℕ) :
    PhysLF.stepRK4 bodies dt ts ms vs cso si
      = SpecModel.scaleVelocities vs (PhysLF.stepRK4 bodies dt ts ms 1 cso si) := by
  simp only [PhysLF.stepRK4, SpecModel.scaleVelocities, List.map_map]
  refine List.map_congr_left fun i _ => ?_
  simp only [Function.comp_apply]
  refine Body.ext rfl rfl rfl rfl rfl ?_ rfl
  refine Vec3.ext ?_ ?_ ?_ <;> ring

/-- C1 counterexample: the velocity state after one `stepLeapfrog` frame does
depend on `velScale` (a single free body keeps velocity `(1,0,0)` at
`velScale = 1` but gets `(2,0,0)` at `velScale = 2`), while the positions of
the two runs agree — the opposite of the claim. -/
theorem C1_counterexample :
    (PhysLF.stepLeapfrog exFree 1 1 1 2 false 0).map Body.velocity
        ≠ (PhysLF.stepLeapfrog exFree 1 1 1 1 false 0).map Body.velocity ∧
      (PhysLF.stepLeapfrog exFree 1 1 1 2 false 0).map Body.position
        = (PhysLF.stepLeapfrog exFree 1 1 1 1 false 0).map Body.position := by
  have hacc2 : PhysLF.accumulateAccelerations exFree 1 false 0 = [⟨0, 0, 0⟩] :=
    accumulate_singleton _ 1 0
  constructor
  · intro h
    have hx := congrArg (fun l => (l.getD 0 (⟨0, 0, 0⟩ : Vec3)).x) h
    simp [PhysLF.stepLeapfrog, hacc2, accumulate_singleton, exFree, mkBody] at hx
  · simp [PhysLF.stepLeapfrog, hacc2, accumulate_singleton, exFree, mkBody]

/-- C1 amended: `velScale` does not touch the position update at all;
instead, both `stepLeapfrog` and `stepRK4` multiply every body's stored
velocity by `velScale` at the end of the frame, so a run with `velScale` is
exactly the `velScale = 1` run with all final velocities rescaled (positions
identical). -/
theorem C1_amended
    (bodies : List Body) (dt ts ms vs : ℝ) (cso : Bool) (si : ℕ) :
    PhysLF.stepLeapfrog bodies dt ts ms vs cso si
        = SpecModel.scaleVelocities vs (PhysLF.stepLeapfrog bodies dt ts ms 1 cso si) ∧
      PhysLF.stepRK4 bodies dt ts ms vs cso si
        = SpecModel.scaleVelocities vs (PhysLF.stepRK4 bodies dt ts ms 1 cso si) :=
  ⟨stepLeapfrog_velScale bodies dt ts ms vs cso si,
   stepRK4_velScale bodies dt ts ms vs cso si⟩

/-- C2 counterexample: at the clamped maxima `dt = 0.25`, `timeScale = 100`
(the only step-size control anywhere in the code, in `Scene`), the leapfrog
frame advance applies the single step size `25` simulated days — far above
the spec's `hMax = 0.05` ceiling — instead of the `500` substeps of size
`0.05` the claim mandates. -/
theorem C2_counterexample :
    SpecModel.leapfrogStepSizes (Canvas.safeDt 0.25) (Canvas.safeScale 100) = [25] ∧
      SpecModel.hMax < 25 ∧
      SpecModel.specSubstepSizes 25 = List.replicate 500 ((25 : ℝ) / 500) ∧
      SpecModel.leapfrogStepSizes (Canvas.safeDt 0.25) (Canvas.safeScale 100)
        ≠ SpecModel.specSubstepSizes 25 := by
  have h1 : SpecModel.leapfrogStepSizes (Canvas.safeDt 0.25) (Canvas.safeScale 100) = [25] := by
    norm_num [SpecModel.leapfrogStepSizes, Canvas.safeDt, Canvas.safeScale]
  have hdiv : (25 : ℝ) / SpecModel.hMax = 500 := by
    norm_num [SpecModel.hMax]
  have hceil : (⌈(25 : ℝ) / SpecModel.hMax⌉ : ℤ) = 500 := by
    rw [hdiv]; norm_num
  have h3 : SpecModel.specSubstepSizes 25 = List.replicate 500 ((25 : ℝ) / 500) := by
    simp only [SpecModel.specSubstepSizes, hceil]
    have ht : (500 : ℤ).toNat = 500 := by decide
    rw [ht]
    norm_num
  refine ⟨h1, by norm_num [SpecModel.hMax], h3, ?_⟩
  intro h
  have hlen2 := congrArg List.length h
  rw [h1, h3] at hlen2
  simp only [List.length_cons, List.length_nil, List.length_replicate] at hlen2
  omega

/-- C2 amended: the leapfrog frame advance performs exactly one
kick-drift-kick step of the full size `H = dt * timeScale` — the list of
applied step sizes is `[dt * timeScale]`, with no internal subdivision and no
`hMax` ceiling; the only step-size limiting is the caller-side clamp
`dt <= 0.25`, `timeScale <= 100` in `Scene`, which bounds the single step by
`25` simulated days. -/
theorem C2_amended (bodies : List Body) (dt ts ms vs : ℝ) (cso : Bool) (si : ℕ) :
    PhysLF.stepLeapfrog bodies dt ts ms vs cso si
        = SpecModel.runSubsteps ms vs cso si bodies (SpecModel.leapfrogStepSizes dt ts) ∧
      (0 ≤ dt → 0 ≤ ts →
        ∀ s ∈ SpecModel.leapfrogStepSizes (Canvas.safeDt dt) (Canvas.safeScale ts),
          s ≤ 25) := by
  constructor
  · rfl
  · intro hdt hts s hs
    simp only [SpecModel.leapfrogStepSizes, List.mem_singleton] at hs
    rw [hs]
    have h1 : Canvas.safeDt dt ≤ 0.25 := min_le_right _ _
    have h2 : Canvas.safeScale ts ≤ 100 := min_le_right _ _
    have h3 : 0 ≤ Canvas.safeDt dt := le_min hdt (by norm_num)
    calc Canvas.safeDt dt * Canvas.safeScale ts
        ≤ 0.25 * 100 := mul_le_mul h1 h2 (le_min hts (by norm_num)) (by norm_num)
      _ = 25 := by norm_num

theorem C2_amended_witness :
    PhysLF.stepLeapfrog exFree 0.25 100 1 1 false 0
        = SpecModel.runSubsteps 1 1 false 0 exFree (SpecModel.leapfrogStepSizes 0.25 100) ∧
      ∀ s ∈ SpecModel.leapfrogStepSizes (Canvas.safeDt 0.25) (Canvas.safeScale 100),
        s ≤ 25 :=
  ⟨(C2_amended exFree 0.25 100 1 1 false 0).1,
   (C2_amended exFree 0.25 100 1 1 false 0).2 (by norm_num) (by norm_num)⟩

theorem accumulate_length (bodies : List Body) (ms : ℝ) (cso : Bool) (si : ℕ) :
    (PhysLF.accumulateAccelerations bodies ms cso si).length = bodies.length := by
  unfold PhysLF.accumulateAccelerations
  cases cso <;> simp

theorem getD_map_position (bodies : List Body) (i : ℕ) (h : i < bodies.length) :
    (bodies.map Body.position).getD i ⟨0, 0, 0⟩ = (bodies.getD i dB).position := by
  have h1 : i < (bodies.map Body.position).length := by simpa using h
  rw [List.getD_eq_getElem _ _ h1, List.getD_eq_getElem _ _ h]
  simp

theorem getD_map_velocity (bodies : List Body) (i : ℕ) (h : i < bodies.length) :
    (bodies.map Body.velocity).getD i ⟨0, 0, 0⟩ = (bodies.getD i dB).velocity := by
  have h1 : i < (bodies.map Body.velocity).length := by simpa using h
  rw [List.getD_eq_getElem _ _ h1, List.getD_eq_getElem _ _ h]
  simp

theorem zipWith_const_left {α β : Type} :
    ∀ (l : List α) (m : List β), l.length ≤ m.length →
      List.zipWith (fun a _ => a) l m = l := by
  intro l
  induction l with
  | nil => intro m _; simp
  | cons a t ih =>
    intro m hm
    cases m with
    | nil => simp at hm
    | cons b u =>
      simp only [List.zipWith_cons_cons, List.cons.injEq, true_and]
      exact ih u (by simpa using hm)

/-- C8 counterexample: a negative `dt` does not short-circuit — the leapfrog
advance runs a backward step that moves the body (`position.x` becomes `-1`
instead of staying `0`), so the state is not left unchanged. -/
theorem C8_counterexample :
    PhysLF.stepLeapfrog exFree (-1) 1 1 1 false 0 ≠ exFree := by
  intro h
  have hx := congrArg (fun l => (l.getD 0 dB).position.x) h
  simp [PhysLF.stepLeapfrog, accumulate_singleton, exFree, mkBody, dB] at hx

/-- C8 amended: there is no `H <= 0` short-circuit — a negative effective
step integrates backward and does move bodies (see the counterexample) — but
a zero effective step `dt * timeScale = 0` with `velScale = 1` is an exact
identity for both integrators in exact arithmetic, and both functions are
total (never throw). -/
theorem C8_amended (bodies : List Body) (dt ts ms : ℝ) (cso : Bool) (si : ℕ)
    (h0 : dt * ts = 0) :
    PhysLF.stepLeapfrog bodies dt ts ms 1 cso si = bodies ∧
      PhysLF.stepRK4 bodies dt ts ms 1 cso si = bodies := by
  constructor
  · simp only [PhysLF.stepLeapfrog, h0]
    simp only [zero_mul, mul_zero, add_zero, mul_one]
    have e1 : (fun (b : Body) (_ : Vec3) => { b with velocity := b.velocity }) =
        (fun (b : Body) (_ : Vec3) => b) := by
      funext b ai
      rfl
    have e2 : (fun (b : Body) => { b with position := b.position }) =
        (fun (b : Body) => b) := by
      funext b
      rfl
    rw [e1, e2, List.map_id']
    rw [zipWith_const_left bodies _ (by rw [accumulate_length])]
    rw [zipWith_const_left bodies _ (by rw [accumulate_length])]
  · simp only [PhysLF.stepRK4, h0]
    simp only [zero_div, zero_mul, add_zero, mul_one]
    apply List.ext_getElem
    · simp
    · intro i h1 h2
      have hiN : i < bodies.length := by simpa using h1
      simp only [List.getElem_map, List.getElem_range]
      rw [getD_map_position bodies i hiN, getD_map_velocity bodies i hiN,
          List.getD_eq_getElem bodies dB hiN]

theorem C8_amended_witness :
    PhysLF.stepLeapfrog exFree 0 5 1 1 false 0 = exFree ∧
      PhysLF.stepRK4 exFree 0 5 1 1 false 0 = exFree :=
  C8_amended exFree 0 5 1 false 0 (by norm_num)

theorem stepLeapfrog_eq_kdkSpec (bodies : List Body) (dt ts ms : ℝ) (si : ℕ) :
    PhysLF.stepLeapfrog bodies dt ts ms 1 false si
      = SpecModel.kdkSpecStep bodies (dt * ts) ms := by
  have hkick1 : (fun (b : Body) (ai : Vec3) =>
      { b with velocity := (⟨b.velocity.x + ai.x * (dt * ts * 0.5),
                             b.velocity.y + ai.y * (dt * ts * 0.5),
                             b.velocity.z + ai.z * (dt * ts * 0.5)⟩ : Vec3) })
      = (fun (b : Body) (ai : Vec3) =>
      { b with velocity := (⟨b.velocity.x + ai.x * (dt * ts) / 2,
                             b.velocity.y + ai.y * (dt * ts) / 2,
                             b.velocity.z + ai.z * (dt * ts) / 2⟩ : Vec3) }) := by
    funext b ai
    refine Body.ext rfl rfl rfl rfl rfl ?_ rfl
    refine Vec3.ext ?_ ?_ ?_ <;> ring
  have hkick2 : (fun (b : Body) (ai : Vec3) =>
      { b with velocity := (⟨(b.velocity.x + ai.x * (dt * ts * 0.5)) * 1,
                             (b.velocity.y + ai.y * (dt * ts * 0.5)) * 1,
                             (b.velocity.z + ai.z * (dt * ts * 0.5)) * 1⟩ : Vec3) })
      = (fun (b : Body) (ai : Vec3) =>
      { b with velocity := (⟨b.velocity.x + ai.x * (dt * ts) / 2,
                             b.velocity.y + ai.y * (dt * ts) / 2,
                             b.velocity.z + ai.z * (dt * ts) / 2⟩ : Vec3) }) := by
    funext b ai
    refine Body.ext rfl rfl rfl rfl rfl ?_ rfl
    refine Vec3.ext ?_ ?_ ?_ <;> ring
  simp only [PhysLF.stepLeapfrog, SpecModel.kdkSpecStep]
  rw [accumulate_false_eq_accelFor, hkick1, hkick2, accumulate_false_eq_accelFor]

/-- C3: with `velScale = 1` (and no auxiliary accelerations in this variant),
the leapfrog frame advance is exactly the symmetric kick-drift-kick scheme —
velocity incremented by `a(x_t) * h/2`, position by `v * h`, velocity by
`a(x_{t+h}) * h/2`, with `a` the full gravitational acceleration at the
stated positions — and it differs from the non-symmetric Euler step
`stepSymplecticEuler` already at a concrete two-body input. -/
theorem C3_leapfrog_is_kdk :
    (∀ (bodies : List Body) (dt ts ms : ℝ) (si : ℕ),
        PhysLF.stepLeapfrog bodies dt ts ms 1 false si
          = SpecModel.kdkSpecStep bodies (dt * ts) ms) ∧
      PhysLF.stepLeapfrog exSunPlanet 1 1 1 1 false 0
        ≠ Phys0.stepSymplecticEuler exSunPlanet 1 1 1 1 := by
  refine ⟨stepLeapfrog_eq_kdkSpec, ?_⟩
  intro h
  have hx := congrArg (fun l => (l.getD 1 dB).position.x) h
  have hS : (0:ℝ) < 1 + SOFTENING2 := by
    have := SOFTENING2_pos
    linarith
  have hsq : 0 < Real.sqrt (1 + SOFTENING2) := Real.sqrt_pos.mpr hS
  have hq : 0 < G * (1 / (Real.sqrt (1 + SOFTENING2) * (1 + SOFTENING2))) := by
    apply mul_pos G_pos
    exact div_pos one_pos (mul_pos hsq hS)
  simp [PhysLF.stepLeapfrog, Phys0.stepSymplecticEuler, accumulate_false_eq_accelFor,
        Phys0.accelFor, Phys0.accelTerm, exSunPlanet, mkBody, dB,
        Finset.sum_range_succ] at hx
  have hq2 : 0 < G * ((1 + SOFTENING2)⁻¹ * (Real.sqrt (1 + SOFTENING2))⁻¹) := by
    apply mul_pos G_pos
    exact mul_pos (inv_pos.mpr hS) (inv_pos.mpr hsq)
  linarith [hq2, hx]

theorem speed_of_scaled (tx ty tz vmag s : ℝ) (hs : s * s = 1) (hv : 0 ≤ vmag)
    (htl : hypot3 tx ty tz ≠ 0) :
    hypot3 (tx / hypot3 tx ty tz * vmag * s) (ty / hypot3 tx ty tz * vmag * s)
      (tz / hypot3 tx ty tz * vmag * s) = vmag := by
  have hL2 : hypot3 tx ty tz * hypot3 tx ty tz = tx * tx + ty * ty + tz * tz :=
    hypot3_sq tx ty tz
  have harg : (tx / hypot3 tx ty tz * vmag * s) * (tx / hypot3 tx ty tz * vmag * s)
      + (ty / hypot3 tx ty tz * vmag * s) * (ty / hypot3 tx ty tz * vmag * s)
      + (tz / hypot3 tx ty tz * vmag * s) * (tz / hypot3 tx ty tz * vmag * s)
      = vmag * vmag := by
    have e : (tx / hypot3 tx ty tz * vmag * s) * (tx / hypot3 tx ty tz * vmag * s)
        + (ty / hypot3 tx ty tz * vmag * s) * (ty / hypot3 tx ty tz * vmag * s)
        + (tz / hypot3 tx ty tz * vmag * s) * (tz / hypot3 tx ty tz * vmag * s)
        = vmag * vmag * (s * s) * ((tx * tx + ty * ty + tz * tz)
            / (hypot3 tx ty tz * hypot3 tx ty tz)) := by
      ring
    rw [e, ← hL2, div_self (mul_ne_zero htl htl), hs, mul_one, mul_one]
  show Real.sqrt _ = vmag
  rw [harg, Real.sqrt_mul_self hv]

/-- C5 amended: the claim holds of `src/lib/physics.ts`'s
`seedCircularVelocities` (which has the alternate-tangent fallback): every
non-central body at distance `r > 0` gets speed exactly
`sqrt (G * M_central / r)`, velocity orthogonal to the radius vector, and in
the degenerate case `rx = ry = 0` the fallback tangent keeps the velocity
non-zero provided the central mass is positive.  The `part_007` copy of the
function lacks the fallback and assigns the zero vector in the degenerate
case (see the counterexample). -/
theorem C5_amended (bodies : List Body) (sunId : String) (cw : Bool) (k0 i : ℕ)
    (hfind : bodies.findIdx? (fun b => b.id = sunId) = some k0)
    (hi : i < bodies.length) (hik : i ≠ k0)
    (hr : hypot3 ((bodies.getD i dB).position.x - (bodies.getD k0 dB).position.x)
        ((bodies.getD i dB).position.y - (bodies.getD k0 dB).position.y)
        ((bodies.getD i dB).position.z - (bodies.getD k0 dB).position.z) ≠ 0) :
    hypot3 ((Phys0.seedCircularVelocities bodies sunId cw).getD i dB).velocity.x
        ((Phys0.seedCircularVelocities bodies sunId cw).getD i dB).velocity.y
        ((Phys0.seedCircularVelocities bodies sunId cw).getD i dB).velocity.z
      = Real.sqrt (G * (bodies.getD k0 dB).mass
          / hypot3 ((bodies.getD i dB).position.x - (bodies.getD k0 dB).position.x)
              ((bodies.getD i dB).position.y - (bodies.getD k0 dB).position.y)
              ((bodies.getD i dB).position.z - (bodies.getD k0 dB).position.z)) ∧
      ((Phys0.seedCircularVelocities bodies sunId cw).getD i dB).velocity.x
            * ((bodies.getD i dB).position.x - (bodies.getD k0 dB).position.x)
          + ((Phys0.seedCircularVelocities bodies sunId cw).getD i dB).velocity.y
            * ((bodies.getD i dB).position.y - (bodies.getD k0 dB).position.y)
          + ((Phys0.seedCircularVelocities bodies sunId cw).getD i dB).velocity.z
            * ((bodies.getD i dB).position.z - (bodies.getD k0 dB).position.z) = 0 ∧
      ((bodies.getD i dB).position.x - (bodies.getD k0 dB).position.x = 0 →
        (bodies.getD i dB).position.y - (bodies.getD k0 dB).position.y = 0 →
        0 < (bodies.getD k0 dB).mass →
        ((Phys0.seedCircularVelocities bodies sunId cw).getD i dB).velocity
          ≠ ⟨0, 0, 0⟩) := by
  simp only [Phys0.seedCircularVelocities, hfind]
  rw [getD_map_range _ _ _ hi]
  rw [if_neg hik, if_neg hr]
  dsimp only
  set rx := (bodies.getD i dB).position.x - (bodies.getD k0 dB).position.x with hrxd
  set ry := (bodies.getD i dB).position.y - (bodies.getD k0 dB).position.y with hryd
  set rz := (bodies.getD i dB).position.z - (bodies.getD k0 dB).position.z with hrzd
  set M := (bodies.getD k0 dB).mass with hMd
  set s := (if cw then (-1 : ℝ) else 1) with hsd
  have hs2 : s * s = 1 := by
    rw [hsd]
    cases cw <;> norm_num
  have hrpos : 0 < hypot3 rx ry rz :=
    lt_of_le_of_ne (hypot3_nonneg rx ry rz) (Ne.symm hr)
  have hvm : (0:ℝ) ≤ Real.sqrt (G * M / hypot3 rx ry rz) := Real.sqrt_nonneg _
  have hs0 : s ≠ 0 := by
    intro h0
    rw [h0] at hs2
    norm_num at hs2
  by_cases hdeg : hypot3 (-ry) rx 0 = 0
  · rw [if_pos hdeg]
    dsimp only
    have h1 := (hypot3_eq_zero_iff (-ry) rx 0).mp hdeg
    have hrx0 : rx = 0 := by nlinarith [mul_self_nonneg rx, mul_self_nonneg ry]
    have hry0 : ry = 0 := by nlinarith [mul_self_nonneg rx, mul_self_nonneg ry]
    have hrz0 : rz ≠ 0 := by
      intro h0
      apply hr
      rw [hrx0, hry0, h0]
      simp [hypot3]
    have hL : hypot3 0 (-rz) ry ≠ 0 := by
      intro h0
      have h2 := (hypot3_eq_zero_iff 0 (-rz) ry).mp h0
      have h3 : 0 < rz * rz := mul_self_pos.mpr hrz0
      nlinarith [mul_self_nonneg ry]
    refine ⟨?_, ?_, ?_⟩
    · exact speed_of_scaled 0 (-rz) ry _ s hs2 hvm hL
    · ring
    · intro h0x h0y hM hveq
      have hy := congrArg Vec3.y hveq
      dsimp at hy
      have hvmpos : 0 < Real.sqrt (G * M / hypot3 rx ry rz) :=
        Real.sqrt_pos.mpr (div_pos (mul_pos G_pos hM) hrpos)
      have hne : -rz / hypot3 0 (-rz) ry ≠ 0 :=
        div_ne_zero (neg_ne_zero.mpr hrz0) hL
      exact (mul_ne_zero (mul_ne_zero hne (ne_of_gt hvmpos)) hs0) hy
  · rw [if_neg hdeg]
    dsimp only
    refine ⟨?_, ?_, ?_⟩
    · exact speed_of_scaled (-ry) rx 0 _ s hs2 hvm hdeg
    · ring
    · intro h0x h0y hM
      exfalso
      apply hdeg
      rw [h0x, h0y]
      simp [hypot3]

/-- C5 counterexample: the `part_007` variant of `seedCircularVelocities`
has no alternate-tangent fallback (`Math.hypot(...) || 1`), so for a body
straight above the sun on the `z` axis at distance `2` it assigns the zero
velocity — speed `0`, not the non-zero circular speed `sqrt (G * 1 / 2)` the
claim requires. -/
theorem C5_counterexample :
    ((PhysLF.seedCircularVelocities exDegenerate "sun" false).getD 1 dB).velocity
        = ⟨0, 0, 0⟩ ∧
      Real.sqrt (G * 1 / 2) ≠ 0 := by
  constructor
  · have hf : exDegenerate.findIdx? (fun b => b.id = "sun") = some 0 := rfl
    have h1len : (1 : ℕ) < exDegenerate.length := by simp [exDegenerate]
    simp only [PhysLF.seedCircularVelocities, hf]
    rw [getD_map_range _ _ _ h1len]
    rw [if_neg (by norm_num : ¬((1:ℕ) = 0))]
    simp only [exDegenerate, mkBody, List.getD_cons_zero, List.getD_cons_succ]
    norm_num
    have h2 : hypot3 0 0 2 = 2 := by
      unfold hypot3
      rw [show (0:ℝ) * 0 + 0 * 0 + 2 * 2 = 2 ^ 2 by norm_num,
          Real.sqrt_sq (by norm_num : (0:ℝ) ≤ 2)]
    rw [if_neg (by rw [h2]; norm_num)]
  · have : 0 < Real.sqrt (G * 1 / 2) :=
      Real.sqrt_pos.mpr (by norm_num [G])
    exact ne_of_gt this

theorem hypot3_002 : hypot3 0 0 2 = 2 := by
  unfold hypot3
  rw [show (0:ℝ) * 0 + 0 * 0 + 2 * 2 = 2 ^ 2 by norm_num,
      Real.sqrt_sq (by norm_num : (0:ℝ) ≤ 2)]

theorem C5_witness :
    hypot3 ((Phys0.seedCircularVelocities exDegenerate "sun" false).getD 1 dB).velocity.x
        ((Phys0.seedCircularVelocities exDegenerate "sun" false).getD 1 dB).velocity.y
        ((Phys0.seedCircularVelocities exDegenerate "sun" false).getD 1 dB).velocity.z
      = Real.sqrt (G * (exDegenerate.getD 0 dB).mass
          / hypot3 ((exDegenerate.getD 1 dB).position.x - (exDegenerate.getD 0 dB).position.x)
              ((exDegenerate.getD 1 dB).position.y - (exDegenerate.getD 0 dB).position.y)
              ((exDegenerate.getD 1 dB).position.z - (exDegenerate.getD 0 dB).position.z)) ∧
      ((Phys0.seedCircularVelocities exDegenerate "sun" false).getD 1 dB).velocity.x
            * ((exDegenerate.getD 1 dB).position.x - (exDegenerate.getD 0 dB).position.x)
          + ((Phys0.seedCircularVelocities exDegenerate "sun" false).getD 1 dB).velocity.y
            * ((exDegenerate.getD 1 dB).position.y - (exDegenerate.getD 0 dB).position.y)
          + ((Phys0.seedCircularVelocities exDegenerate "sun" false).getD 1 dB).velocity.z
            * ((exDegenerate.getD 1 dB).position.z - (exDegenerate.getD 0 dB).position.z)
          = 0 ∧
      ((exDegenerate.getD 1 dB).position.x - (exDegenerate.getD 0 dB).position.x = 0 →
        (exDegenerate.getD 1 dB).position.y - (exDegenerate.getD 0 dB).position.y = 0 →
        0 < (exDegenerate.getD 0 dB).mass →
        ((Phys0.seedCircularVelocities exDegenerate "sun" false).getD 1 dB).velocity
          ≠ ⟨0, 0, 0⟩) := by
  refine C5_amended exDegenerate "sun" false 0 1 rfl (by simp [exDegenerate])
    (by norm_num) ?_
  simp only [exDegenerate, mkBody, List.getD_cons_zero, List.getD_cons_succ]
  norm_num
  rw [hypot3_002]
  norm_num
